import Mathlib

/-!
Verification model of the `checklinks` crawler (package `checklinks`,
file `checklinks.go`).  The URL classifier, the result formatting, the
reporter's filtering, the dispatcher loop of `CrawlPage`, and the worker
functions `ProcessNode` and `ProcessLeaf` are embedded as pure functions;
a worker's behaviour is its trace of observable actions (token-pool
operations, HTTP requests, result emissions, link discoveries, completion
signals), with the network and the HTML extractor supplied as oracle
arguments at their interface boundary.  External collaborators from the Go
standard library (`net/url` parsing and serialisation, `net/http` status
texts) are modelled on the fragment the program exercises: URL
serialisation follows `net/url.URL.String` restricted to the fields the
program constructs (scheme, host, path, query, fragment; no opaque part,
no user info, identity escaping for the unreserved characters appearing
here), and status texts follow the `net/http.StatusText` table.
-/

/-- Model of `strings.HasPrefix s pre` from the Go standard library. -/
def hasPre (s pre : String) : Bool := pre.toList.isPrefixOf s.toList

/-- Model of `strings.HasSuffix s suf` from the Go standard library. -/
def hasSuf (s suf : String) : Bool := suf.toList.isSuffixOf s.toList

/-- Model of Go `net/url.URL` restricted to the fields `checklinks` reads or
writes: `Scheme`, `Host`, `Path`, `RawQuery`, `Fragment`. -/
structure URL where
  scheme : String
  host : String
  path : String
  rawQuery : String := ""
  fragment : String := ""
deriving DecidableEq, Repr

/-- Model of `stripPort` from Go `net/url` (the helper behind
`URL.Hostname`): everything before the first `:`, with an IPv6 bracket
pair stripped when one is present. -/
def stripPort (hostport : String) : String :=
  let cs := hostport.toList
  match cs.findIdx? (· == ':') with
  | none => hostport
  | some colon =>
    match cs.findIdx? (· == ']') with
    | some i =>
      let h := cs.take i
      String.mk (if h.head? = some '[' then h.drop 1 else h)
    | none => String.mk (cs.take colon)

/-- Model of Go `net/url.URL.Hostname`. -/
def URL.hostname (u : URL) : String := stripPort u.host

/-- Model of Go `net/url.URL.String` on the URL fragment above: scheme with
a `:`, `//host` whenever a scheme or host is present and there is a host or
a path, a `/` inserted between a host and a relative path, then the path,
`?query` and `#fragment`. -/
def URL.goString (u : URL) : String :=
  (if u.scheme = "" then "" else u.scheme ++ ":")
  ++ (if (u.scheme ≠ "" ∨ u.host ≠ "") ∧ (u.host ≠ "" ∨ u.path ≠ "") then "//" ++ u.host else "")
  ++ (if u.path ≠ "" ∧ u.path.toList.head? ≠ some '/' ∧ u.host ≠ "" then "/" else "")
  ++ u.path
  ++ (if u.rawQuery = "" then "" else "?" ++ u.rawQuery)
  ++ (if u.fragment = "" then "" else "#" ++ u.fragment)

/-- Embedding of `QualifyInternalURL` (checklinks.go): merge scheme and
host from the page with the path-join of the page's and the link's paths;
only `Scheme`, `Host` and `Path` are set on the new URL. -/
def QualifyInternalURL (page link : URL) : URL :=
  let path :=
    if hasPre link.path "/" then link.path
    else if hasSuf page.path "/" then page.path ++ link.path
    else page.path ++ "/" ++ link.path
  { scheme := page.scheme, host := page.host, path := path, rawQuery := "", fragment := "" }

/-- Embedding of the `Link` struct (checklinks.go): a URL in the context of
the page (`Orig`) on which it was found. -/
structure Link where
  url : URL
  orig : URL
deriving DecidableEq, Repr

/-- Embedding of `Link.IsInternal` (checklinks.go). -/
def Link.IsInternal (l : Link) : Bool :=
  l.url.hostname == l.orig.hostname || l.url.hostname == ""

/-- Embedding of `Link.IsCrawlable` (checklinks.go). -/
def Link.IsCrawlable (l : Link) : Bool :=
  l.url.scheme == "https" || l.url.scheme == "http" || l.url.scheme == ""

/-- The error values the program produces or propagates, each carrying the
strings Go's `fmt`/`net/url` would embed in the message: the sentinel
`errNotCrawlable`, a `url.Parse` failure, a `newGetRequest` construction
failure, a transport error from `http.Client.Do`, the two wrappers of
`FetchDocument`, and the non-200-status error built in `ProcessLeaf`. -/
inductive GoError where
  | notCrawlable : GoError
  | parseURL (raw msg : String) : GoError
  | prepare (method url msg : String) : GoError
  | transport (msg : String) : GoError
  | fetch (url msg : String) : GoError
  | parseDoc (url msg : String) : GoError
  | httpStatus (method : String) (code : Nat) (text : String) (url : String) : GoError
deriving DecidableEq, Repr

/-- The `%v` rendering of each error, following the `fmt.Errorf` format
strings in checklinks.go and the `op "url": err` format of `url.Error`. -/
def GoError.goString : GoError → String
  | .notCrawlable => "not crawlable"
  | .parseURL raw msg => "parse \"" ++ raw ++ "\": " ++ msg
  | .prepare method url msg => "prepare " ++ method ++ " request to " ++ url ++ ": " ++ msg
  | .transport msg => msg
  | .fetch url msg => "fetch " ++ url ++ ": " ++ msg
  | .parseDoc url msg => "parse document at " ++ url ++ ": " ++ msg
  | .httpStatus method code text url =>
      method ++ " " ++ toString code ++ " " ++ text ++ " " ++ url

/-- Model of Go `net/http.StatusText` on the codes exercised here. -/
def goStatusText (code : Nat) : String :=
  if code = 200 then "OK"
  else if code = 201 then "Created"
  else if code = 204 then "No Content"
  else if code = 301 then "Moved Permanently"
  else if code = 404 then "Not Found"
  else if code = 405 then "Method Not Allowed"
  else if code = 500 then "Internal Server Error"
  else ""

/-- Embedding of the `Result` struct (checklinks.go). -/
structure Result where
  err : Option GoError
  link : Link
deriving DecidableEq, Repr

/-- Embedding of `Result.String` (checklinks.go): `FAIL "%s": from "%s" %v`
with an error, `OK "%s" from "%s"` without. -/
def Result.goString (c : Result) : String :=
  let toS := c.link.url.goString
  let orig := c.link.orig.goString
  match c.err with
  | some e => "FAIL \"" ++ toS ++ "\": from \"" ++ orig ++ "\" " ++ e.goString
  | none => "OK \"" ++ toS ++ "\" from \"" ++ orig ++ "\""

/-- Embedding of the `results` case of `CrawlPage`'s select loop
(checklinks.go): the lines printed to standard output for one incoming
result, given the visibility flags `ok`, `ignore`, `fail`.  `errors.Is`
against the sentinel `errNotCrawlable` is equality, since no error in the
program wraps another with `%w`. -/
def reportLines (ok ignore fail : Bool) (r : Result) : List String :=
  (match r.err with
   | some e =>
     if e = GoError.notCrawlable then (if ignore then [r.goString] else [])
     else (if fail then [r.goString] else [])
   | none => [])
  ++ (if r.err = none ∧ ok then [r.goString] else [])

/-- Embedding of the constant `Parallelism` (checklinks.go), the size of
the token pool `CrawlPage` fills before crawling. -/
def Parallelism : Nat := 64

/-- Model of `crypto/tls.Config` restricted to the one field set. -/
structure TLSConfig where
  insecureSkipVerify : Bool
deriving DecidableEq, Repr

/-- Model of `net/http.Transport` restricted to the one field set. -/
structure HTTPTransport where
  tlsClientConfig : TLSConfig
deriving DecidableEq, Repr

/-- Model of `net/http.Client` restricted to the fields `CrawlPage` sets;
the Go timeout is `time.Duration(timeout) * time.Second`, recorded here in
seconds. -/
structure GoHTTPClient where
  timeoutSeconds : Int
  transport : HTTPTransport
deriving DecidableEq, Repr

/-- Embedding of the `http.Client` literal built at the start of
`CrawlPage` (checklinks.go), as a function of all of `CrawlPage`'s
arguments. -/
def crawlPageClient (_site : URL) (timeout : Int) (_ok _ignore _fail : Bool) : GoHTTPClient :=
  { timeoutSeconds := timeout
    transport := { tlsClientConfig := { insecureSkipVerify := true } } }

/-- An observable action of a worker goroutine: receiving from or sending
to the token channel `t`, issuing an HTTP request, sending on the `results`
channel, sending on the `links` channel, and sending on the `done`
channel. -/
inductive Event where
  | acquireToken : Event
  | releaseToken : Event
  | httpRequest (method url : String) : Event
  | emitResult (r : Result) : Event
  | enqueueLink (l : Link) : Event
  | signalDone : Event
deriving DecidableEq, Repr

/-- The outcome `FetchDocument` hands to `ProcessNode`, as an oracle:
either `newGetRequest` failed before any request was issued, or the GET
was issued and failed (transport failure, or the body did not parse as
HTML), or it succeeded and `ExtractTagAttribute(doc, "a", "href")` yielded
the given candidate strings. -/
inductive FetchOutcome where
  | prepError (e : GoError) : FetchOutcome
  | netError (e : GoError) : FetchOutcome
  | ok (hrefs : List String) : FetchOutcome

/-- The events `ProcessNode` performs for one extracted `href` candidate
(checklinks.go): `NewLink(href, l.URL)` failing emits a result carrying the
node's own link and continues; a parsed but non-crawlable link emits the
`errNotCrawlable` result carrying the node's own link and continues; a
crawlable link is sent to the `links` channel.  `parse` is the `url.Parse`
oracle. -/
def candidateEvents (parse : String → Except GoError URL) (l : Link) (href : String) :
    List Event :=
  match parse href with
  | .error e => [.emitResult ⟨some e, l⟩]
  | .ok u =>
    let link : Link := ⟨u, l.url⟩
    if link.IsCrawlable then [.enqueueLink link]
    else [.emitResult ⟨some GoError.notCrawlable, l⟩]

/-- Embedding of `ProcessNode` (checklinks.go) as its event trace: a token
is received from `t` before `FetchDocument` and returned right after; a
fetch error emits one failure result and returns; otherwise every
extracted candidate is handled by `candidateEvents`, one success result
for the node itself follows, and the deferred send on `done` is always the
final action. -/
def ProcessNodeTrace (parse : String → Except GoError URL) (fetched : FetchOutcome)
    (l : Link) : List Event :=
  let u := l.url.goString
  match fetched with
  | .prepError e => [.acquireToken, .releaseToken, .emitResult ⟨some e, l⟩, .signalDone]
  | .netError e =>
      [.acquireToken, .httpRequest "GET" u, .releaseToken, .emitResult ⟨some e, l⟩, .signalDone]
  | .ok hrefs =>
      [.acquireToken, .httpRequest "GET" u, .releaseToken]
        ++ hrefs.flatMap (candidateEvents parse l)
        ++ [.emitResult ⟨none, l⟩, .signalDone]

/-- Embedding of `ProcessLeaf` (checklinks.go) as its event trace: the
`newGetRequest` outcome is the oracle `prep` (failure emits one result and
returns), the `c.Do` outcome is the oracle `resp` (transport error, or a
status code); a status other than `http.StatusOK` (200) emits the
`GET %d %s %s` failure result, a 200 emits the success result; the
deferred send on `done` is always the final action.  `ProcessLeaf` never
touches the token channel `t` it receives, so its traces contain no token
events. -/
def ProcessLeafTrace (prep : Option GoError) (resp : Except GoError Nat) (l : Link) :
    List Event :=
  let u := l.url.goString
  match prep with
  | some e => [.emitResult ⟨some e, l⟩, .signalDone]
  | none =>
    match resp with
    | .error e => [.httpRequest "GET" u, .emitResult ⟨some e, l⟩, .signalDone]
    | .ok code =>
      if code = 200 then [.httpRequest "GET" u, .emitResult ⟨none, l⟩, .signalDone]
      else [.httpRequest "GET" u,
            .emitResult ⟨some (GoError.httpStatus "GET" code (goStatusText code) u), l⟩,
            .signalDone]

/-- Recogniser for the completion signal. -/
def Event.isDone : Event → Bool
  | .signalDone => true
  | _ => false

/-- Recogniser for a receive from the token channel. -/
def Event.isAcquire : Event → Bool
  | .acquireToken => true
  | _ => false

/-- Recogniser for a send back to the token channel. -/
def Event.isRelease : Event → Bool
  | .releaseToken => true
  | _ => false

/-- The results a trace sends on the `results` channel, in order. -/
def emittedResults (tr : List Event) : List Result :=
  tr.filterMap fun e =>
    match e with
    | .emitResult r => some r
    | _ => none

/-- The links a trace sends on the `links` channel, in order. -/
def enqueuedLinks (tr : List Event) : List Link :=
  tr.filterMap fun e =>
    match e with
    | .enqueueLink l => some l
    | _ => none

/-- The HTTP requests a trace issues, as (method, url) pairs, in order. -/
def httpRequestsOf (tr : List Event) : List (String × String) :=
  tr.filterMap fun e =>
    match e with
    | .httpRequest m u => some (m, u)
    | _ => none

/-- A task spawned by the dispatcher: a node task fetches an internal page,
a leaf task checks an external link. -/
inductive Spawn where
  | node (l : Link) : Spawn
  | leaf (l : Link) : Spawn
deriving DecidableEq, Repr

/-- The URL string the spawned task fetches (`l.URL.String()` of the link
handed to `ProcessNode` or `ProcessLeaf`). -/
def Spawn.fetchURL : Spawn → String
  | .node l => l.url.goString
  | .leaf l => l.url.goString

/-- The dispatcher's state: the `visited` set of URL strings (a Go map,
modelled as the list of keys in insertion order) and the tasks spawned so
far, each paired with the visited-set key it was admitted under. -/
structure DispatchState where
  visited : List String
  spawned : List (String × Spawn)
deriving DecidableEq, Repr

/-- Embedding of the `links` case of `CrawlPage`'s select loop
(checklinks.go): the key is `l.URL.String()` of the link as received; a key
already in `visited` is skipped (`continue`) with the state unchanged; an
internal link has its URL replaced by `QualifyInternalURL(l.Orig, l.URL)`
and a node task is spawned, an external link spawns a leaf task; the key
is then inserted into `visited`.  The loop body runs inside the single
dispatcher goroutine, so one whole step is serialized. -/
def dispatchStep (st : DispatchState) (l : Link) : DispatchState :=
  let u := l.url.goString
  if u ∈ st.visited then st
  else if l.IsInternal then
    { visited := st.visited ++ [u]
      spawned := st.spawned ++ [(u, Spawn.node ⟨QualifyInternalURL l.orig l.url, l.orig⟩)] }
  else
    { visited := st.visited ++ [u]
      spawned := st.spawned ++ [(u, Spawn.leaf l)] }

/-- The dispatcher run on a sequence of discovery messages, starting from
the empty visited set. -/
def dispatchRun (msgs : List Link) : DispatchState :=
  msgs.foldl dispatchStep ⟨[], []⟩

/-- The seed site of the test page, `url.Parse "https://paedubucher.ch/"`. -/
def sitePB : URL := ⟨"https", "paedubucher.ch", "/", "", ""⟩

/-- An external target, `url.Parse "https://github.com/"`. -/
def ghURL : URL := ⟨"https", "github.com", "/", "", ""⟩

/-- An external (leaf) link found on the seed page. -/
def leafLink : Link := ⟨ghURL, sitePB⟩

/-- The seed link `&Link{site, site}` of a crawl of `sitePB`. -/
def nodeLink : Link := ⟨sitePB, sitePB⟩

/-- The parse of `"mailto:bob@example.com"`: scheme `mailto` (its opaque
part is not read by the program). -/
def mailURL : URL := ⟨"mailto", "", "", "", ""⟩

/-- A `url.Parse` oracle under which every candidate parses to `mailURL`. -/
def parseMail : String → Except GoError URL := fun _ => Except.ok mailURL

/-- An internal page of the site, `url.Parse "https://paedubucher.ch/index.html"`. -/
def pageIndex : URL := ⟨"https", "paedubucher.ch", "/index.html", "", ""⟩

/-- An internal directory page, `url.Parse "https://paedubucher.ch/articles/"`. -/
def pageArticles : URL := ⟨"https", "paedubucher.ch", "/articles/", "", ""⟩

/-- The href `"/articles/foo.html"` as discovered on `pageIndex`. -/
def c3rooted : Link := ⟨⟨"", "", "/articles/foo.html", "", ""⟩, pageIndex⟩

/-- The href `"foo.html"` as discovered on `pageArticles`. -/
def c3relative : Link := ⟨⟨"", "", "foo.html", "", ""⟩, pageArticles⟩

/-- Two discoveries of the same target through different href spellings. -/
def c3msgs : List Link := [c3rooted, c3relative]

/-- The page `https://paedubucher.ch/articles/drink-more-milk` (no trailing
slash). -/
def milkPageNoSlash : URL := ⟨"https", "paedubucher.ch", "/articles/drink-more-milk", "", ""⟩

/-- The page `https://paedubucher.ch/articles/drink-more-milk/`. -/
def milkPageSlash : URL := ⟨"https", "paedubucher.ch", "/articles/drink-more-milk/", "", ""⟩

/-- The relative link `milk-manifesto.html`. -/
def milkLink : URL := ⟨"", "", "milk-manifesto.html", "", ""⟩

/-- The page `https://paedubucher.ch` (empty path after parsing). -/
def cheesePageNoSlash : URL := ⟨"https", "paedubucher.ch", "", "", ""⟩

/-- The page `https://paedubucher.ch/`. -/
def cheesePageSlash : URL := ⟨"https", "paedubucher.ch", "/", "", ""⟩

/-- The root-relative link `/articles/eat-more-cheese.html`. -/
def cheeseLink : URL := ⟨"", "", "/articles/eat-more-cheese.html", "", ""⟩

/-- A successful result for the external link, for format checks. -/
def r8 : Result := ⟨none, leafLink⟩

/-- The parse of `"a.html?q=1#top"`: a relative link carrying a query and a
fragment. -/
def qfLink : URL := ⟨"", "", "a.html", "q=1", "top"⟩

/-- Splitting emitted results over trace concatenation. -/
theorem emittedResults_append (a b : List Event) :
    emittedResults (a ++ b) = emittedResults a ++ emittedResults b :=
  List.filterMap_append a b _

/-- Splitting enqueued links over trace concatenation. -/
theorem enqueuedLinks_append (a b : List Event) :
    enqueuedLinks (a ++ b) = enqueuedLinks a ++ enqueuedLinks b :=
  List.filterMap_append a b _

/-- A per-candidate trace holds one result emission or one link send, so
any event counter vanishing on those two shapes counts it as zero. -/
theorem candidateEvents_countP (p : Event → Bool)
    (h1 : ∀ r, p (Event.emitResult r) = false)
    (h2 : ∀ l2, p (Event.enqueueLink l2) = false)
    (parse : String → Except GoError URL) (l : Link) (href : String) :
    (candidateEvents parse l href).countP p = 0 := by
  unfold candidateEvents
  cases parse href with
  | error e => simp [List.countP_cons, h1]
  | ok u =>
    dsimp only
    split <;> simp [List.countP_cons, h1, h2]

/-- A counter vanishing on every piece vanishes on the flattening. -/
theorem flatMap_countP_zero (p : Event → Bool) (f : String → List Event)
    (h : ∀ s, (f s).countP p = 0) :
    ∀ hrefs : List String, (hrefs.flatMap f).countP p = 0 := by
  intro hrefs
  induction hrefs with
  | nil => rfl
  | cons a t ih => simp [List.flatMap_cons, List.countP_append, h, ih]

/-- C9: `CrawlPage` builds its one HTTP client with TLS certificate
verification unconditionally disabled — for every site, timeout and flag
combination, the client's transport carries
`TLSClientConfig.InsecureSkipVerify = true` (and the configured timeout),
so certificate validity never enters the transport's checks. -/
theorem c9_insecure_skip_verify :
    ∀ (site : URL) (timeout : Int) (ok ignore fail : Bool),
      (crawlPageClient site timeout ok ignore fail).transport.tlsClientConfig.insecureSkipVerify
          = true
      ∧ (crawlPageClient site timeout ok ignore fail).timeoutSeconds = timeout :=
  fun _ _ _ _ _ => ⟨rfl, rfl⟩

/-- C10: a URL produced by `QualifyInternalURL` consists of scheme, host
and path only — its query and fragment are empty for every page and link,
even when the link carries both (illustrated on `a.html?q=1#top` against
the seed page). -/
theorem c10_qualified_drops_query_and_fragment :
    (∀ page link : URL,
      (QualifyInternalURL page link).rawQuery = ""
      ∧ (QualifyInternalURL page link).fragment = "")
    ∧ qfLink.goString = "a.html?q=1#top"
    ∧ (QualifyInternalURL sitePB qfLink).goString = "https://paedubucher.ch/a.html" :=
  ⟨fun _ _ => ⟨rfl, rfl⟩, by decide, by decide⟩

/-- C6: qualification reuses the page's scheme and host; a link path
starting with `/` replaces the page's path, otherwise it is appended with
exactly one separating `/` inserted unless the page path already ends with
one — and the four literal cases of the claim hold, with and without the
trailing slash on the page. -/
theorem c6_qualify_rule_and_examples :
    (∀ page link : URL,
      (QualifyInternalURL page link).scheme = page.scheme
      ∧ (QualifyInternalURL page link).host = page.host
      ∧ (QualifyInternalURL page link).path =
          (if hasPre link.path "/" then link.path
           else if hasSuf page.path "/" then page.path ++ link.path
           else page.path ++ "/" ++ link.path))
    ∧ (QualifyInternalURL milkPageNoSlash milkLink).goString =
        "https://paedubucher.ch/articles/drink-more-milk/milk-manifesto.html"
    ∧ (QualifyInternalURL milkPageSlash milkLink).goString =
        "https://paedubucher.ch/articles/drink-more-milk/milk-manifesto.html"
    ∧ (QualifyInternalURL cheesePageNoSlash cheeseLink).goString =
        "https://paedubucher.ch/articles/eat-more-cheese.html"
    ∧ (QualifyInternalURL cheesePageSlash cheeseLink).goString =
        "https://paedubucher.ch/articles/eat-more-cheese.html" :=
  ⟨fun _ _ => ⟨rfl, rfl, rfl⟩, by decide, by decide, by decide, by decide⟩

/-- C2 counterexample: on a leaf link answered with 200, `ProcessLeaf`
issues exactly one request and its method is GET — no HEAD is ever issued
first, so the claimed HEAD-then-405-fallback protocol does not hold. -/
theorem c2_counterexample :
    httpRequestsOf (ProcessLeafTrace none (Except.ok 200) leafLink)
        = [("GET", "https://github.com/")]
    ∧ ((httpRequestsOf (ProcessLeafTrace none (Except.ok 200) leafLink)).all
        (fun p => p.1 == "GET")) = true := by
  decide

/-- C2 (amended): for every leaf link whose GET request can be
constructed, `ProcessLeaf` issues exactly one HTTP request, a GET on the
link's URL, whatever the response or transport outcome; when request
construction fails it issues none. -/
theorem c2_leaf_checks_with_single_get :
    ∀ (prep : Option GoError) (resp : Except GoError Nat) (l : Link),
      httpRequestsOf (ProcessLeafTrace prep resp l) =
        match prep with
        | some _ => []
        | none => [("GET", l.url.goString)] := by
  intro prep resp l
  cases prep with
  | some e => rfl
  | none =>
    cases resp with
    | error e => rfl
    | ok code =>
      by_cases h : code = 200
      · simp only [ProcessLeafTrace, if_pos h]
        rfl
      · simp only [ProcessLeafTrace, if_neg h]
        rfl

/-- C5 counterexample: a 204 (No Content) response — a 2xx status — does
not yield a success: `ProcessLeaf` emits the one failure result
`GET 204 No Content <url>`, since the code treats every status other than
200 as a failure. -/
theorem c5_counterexample :
    emittedResults (ProcessLeafTrace none (Except.ok 204) leafLink) =
      [⟨some (GoError.httpStatus "GET" 204 "No Content" "https://github.com/"), leafLink⟩]
    ∧ ((emittedResults (ProcessLeafTrace none (Except.ok 204) leafLink)).all
        (fun r => r.err.isSome)) = true := by
  decide

/-- C5 (amended): every leaf task emits exactly one result: a success only
for status exactly 200 (`http.StatusOK`), a failure carrying the status
code and status text for every other status, a failure carrying the
transport error when the request fails, and a failure carrying the
construction error when the request cannot be built. -/
theorem c5_leaf_emits_exactly_one_result :
    ∀ (prep : Option GoError) (resp : Except GoError Nat) (l : Link),
      emittedResults (ProcessLeafTrace prep resp l) =
        [Result.mk
          (match prep with
           | some e => some e
           | none =>
             match resp with
             | .error e => some e
             | .ok code =>
               if code = 200 then none
               else some (GoError.httpStatus "GET" code (goStatusText code) l.url.goString))
          l] := by
  intro prep resp l
  cases prep with
  | some e => rfl
  | none =>
    cases resp with
    | error e => rfl
    | ok code =>
      by_cases h : code = 200
      · simp only [ProcessLeafTrace, if_pos h]
        rfl
      · simp only [ProcessLeafTrace, if_neg h]
        rfl

/-- C8 counterexample: the success line for an OK result is
`OK "<url>" from "<orig>"`, not the claimed `OK "<url>"` — the program
appends the owning page to every line. -/
theorem c8_counterexample :
    Result.goString r8 = "OK \"https://github.com/\" from \"https://paedubucher.ch/\""
    ∧ (Result.goString r8 == "OK \"" ++ r8.link.url.goString ++ "\"") = false := by
  decide

/-- C8 (amended): for every result and flag combination the reporter
prints at most one line — exactly one when the flags select the result —
and that line is `OK "<url>" from "<orig>"` without an error and
`FAIL "<url>": from "<orig>" <error detail>` with one. -/
theorem c8_report_line_format :
    ∀ (ok ignore fail : Bool) (r : Result),
      (reportLines ok ignore fail r = [] ∨ reportLines ok ignore fail r = [r.goString])
      ∧ r.goString =
          (match r.err with
           | some e =>
             "FAIL \"" ++ r.link.url.goString ++ "\": from \"" ++ r.link.orig.goString
               ++ "\" " ++ e.goString
           | none =>
             "OK \"" ++ r.link.url.goString ++ "\" from \"" ++ r.link.orig.goString ++ "\"") := by
  intro ok ignore fail r
  cases hr : r.err with
  | none =>
    refine ⟨?_, ?_⟩
    · simp only [reportLines, hr]
      cases ok <;> simp
    · simp only [Result.goString, hr]
  | some e =>
    refine ⟨?_, ?_⟩
    · simp only [reportLines, hr]
      by_cases he : e = GoError.notCrawlable
      · cases ignore <;> simp [he]
      · cases fail <;> simp [he]
    · simp only [Result.goString, hr]

/-- C1: the token pool has size 64, and `ProcessNode` does acquire and
return one token around its fetch; but `ProcessLeaf` performs its HTTP
request with zero token-pool operations on every path — the pool never
bounds leaf requests, contradicting the claim (and the `Parallelism`
comment in the code) that every task's HTTP call holds a permit. -/
theorem c1_leaf_http_without_token :
    Parallelism = 64
    ∧ (∀ (prep : Option GoError) (resp : Except GoError Nat) (l : Link),
        (ProcessLeafTrace prep resp l).countP Event.isAcquire = 0
        ∧ (ProcessLeafTrace prep resp l).countP Event.isRelease = 0)
    ∧ (∀ (resp : Except GoError Nat) (l : Link),
        (httpRequestsOf (ProcessLeafTrace none resp l)).length = 1)
    ∧ (∀ (parse : String → Except GoError URL) (fetched : FetchOutcome) (l : Link),
        (ProcessNodeTrace parse fetched l).countP Event.isAcquire = 1
        ∧ (ProcessNodeTrace parse fetched l).countP Event.isRelease = 1) := by
  refine ⟨rfl, ?_, ?_, ?_⟩
  · intro prep resp l
    cases prep with
    | some e => exact ⟨rfl, rfl⟩
    | none =>
      cases resp with
      | error e => exact ⟨rfl, rfl⟩
      | ok code =>
        by_cases h : code = 200
        · simp only [ProcessLeafTrace, if_pos h]
          exact ⟨rfl, rfl⟩
        · simp only [ProcessLeafTrace, if_neg h]
          exact ⟨rfl, rfl⟩
  · intro resp l
    cases resp with
    | error e => rfl
    | ok code =>
      by_cases h : code = 200
      · simp only [ProcessLeafTrace, if_pos h]
        rfl
      · simp only [ProcessLeafTrace, if_neg h]
        rfl
  · intro parse fetched l
    cases fetched with
    | prepError e => exact ⟨rfl, rfl⟩
    | netError e => exact ⟨rfl, rfl⟩
    | ok hrefs =>
      have ha : ((hrefs.flatMap (candidateEvents parse l)).countP Event.isAcquire) = 0 :=
        flatMap_countP_zero _ _
          (fun s => candidateEvents_countP _ (fun _ => rfl) (fun _ => rfl) parse l s) hrefs
      have hb : ((hrefs.flatMap (candidateEvents parse l)).countP Event.isRelease) = 0 :=
        flatMap_countP_zero _ _
          (fun s => candidateEvents_countP _ (fun _ => rfl) (fun _ => rfl) parse l s) hrefs
      constructor
      · simp [ProcessNodeTrace, List.countP_append, ha, List.countP_cons, Event.isAcquire]
      · simp [ProcessNodeTrace, List.countP_append, hb, List.countP_cons, Event.isRelease]

/-- C4: every spawned task sends exactly one completion signal, and it is
the final action of the trace on every exit path — the node task across
request-construction failure, fetch failure and success, the leaf task
across construction failure, transport failure and every status. -/
theorem c4_completion_signal_exactly_once :
    ∀ (parse : String → Except GoError URL) (fetched : FetchOutcome) (l : Link)
      (prep : Option GoError) (resp : Except GoError Nat) (l2 : Link),
      (ProcessNodeTrace parse fetched l).countP Event.isDone = 1
      ∧ (ProcessNodeTrace parse fetched l).getLast? = some Event.signalDone
      ∧ (ProcessLeafTrace prep resp l2).countP Event.isDone = 1
      ∧ (ProcessLeafTrace prep resp l2).getLast? = some Event.signalDone := by
  intro parse fetched l prep resp l2
  refine ⟨?_, ?_, ?_, ?_⟩
  · cases fetched with
    | prepError e => rfl
    | netError e => rfl
    | ok hrefs =>
      have hd : ((hrefs.flatMap (candidateEvents parse l)).countP Event.isDone) = 0 :=
        flatMap_countP_zero _ _
          (fun s => candidateEvents_countP _ (fun _ => rfl) (fun _ => rfl) parse l s) hrefs
      simp [ProcessNodeTrace, List.countP_append, hd, List.countP_cons, Event.isDone]
  · cases fetched with
    | prepError e => rfl
    | netError e => rfl
    | ok hrefs =>
      simp only [ProcessNodeTrace]
      rw [List.getLast?_append_of_ne_nil]
      · rfl
      · simp
  · cases prep with
    | some e => rfl
    | none =>
      cases resp with
      | error e => rfl
      | ok code =>
        by_cases h : code = 200
        · simp only [ProcessLeafTrace, if_pos h]
          rfl
        · simp only [ProcessLeafTrace, if_neg h]
          rfl
  · cases prep with
    | some e => rfl
    | none =>
      cases resp with
      | error e => rfl
      | ok code =>
        by_cases h : code = 200
        · simp only [ProcessLeafTrace, if_pos h]
          rfl
        · simp only [ProcessLeafTrace, if_neg h]
          rfl

/-- The links a node task admits to the queue are exactly its candidates
that parse and are crawlable. -/
theorem enqueuedLinks_flatMap_candidates (parse : String → Except GoError URL) (l : Link) :
    ∀ hrefs : List String,
      enqueuedLinks (hrefs.flatMap (candidateEvents parse l)) =
        hrefs.filterMap (fun h =>
          match parse h with
          | .ok u => if (Link.mk u l.url).IsCrawlable then some (Link.mk u l.url) else none
          | .error _ => none) := by
  intro hrefs
  induction hrefs with
  | nil => rfl
  | cons a t ih =>
    rw [List.flatMap_cons, enqueuedLinks_append, ih, List.filterMap_cons]
    cases hp : parse a with
    | error e => simp [candidateEvents, hp, enqueuedLinks]
    | ok u =>
      by_cases hc : (Link.mk u l.url).IsCrawlable
      · simp [candidateEvents, hp, hc, enqueuedLinks]
      · simp [candidateEvents, hp, hc, enqueuedLinks]

/-- The results a node task emits while scanning its candidates are
exactly one per malformed or non-crawlable candidate, each carrying the
node's own link. -/
theorem emittedResults_flatMap_candidates (parse : String → Except GoError URL) (l : Link) :
    ∀ hrefs : List String,
      emittedResults (hrefs.flatMap (candidateEvents parse l)) =
        hrefs.filterMap (fun h =>
          match parse h with
          | .ok u =>
            if (Link.mk u l.url).IsCrawlable then none
            else some (Result.mk (some GoError.notCrawlable) l)
          | .error e => some (Result.mk (some e) l)) := by
  intro hrefs
  induction hrefs with
  | nil => rfl
  | cons a t ih =>
    rw [List.flatMap_cons, emittedResults_append, ih, List.filterMap_cons]
    cases hp : parse a with
    | error e => simp [candidateEvents, hp, emittedResults]
    | ok u =>
      by_cases hc : (Link.mk u l.url).IsCrawlable
      · simp [candidateEvents, hp, hc, emittedResults]
      · simp [candidateEvents, hp, hc, emittedResults]

/-- C7 counterexample: a non-crawlable candidate (`mailto:bob@example.com`
on the seed page) emits a result whose link is the owning node's link, not
the candidate — no emitted result identifies the candidate's URL. -/
theorem c7_counterexample :
    emittedResults
        (ProcessNodeTrace parseMail (FetchOutcome.ok ["mailto:bob@example.com"]) nodeLink) =
      [⟨some GoError.notCrawlable, nodeLink⟩, ⟨none, nodeLink⟩]
    ∧ ((emittedResults
        (ProcessNodeTrace parseMail (FetchOutcome.ok ["mailto:bob@example.com"]) nodeLink)).all
        (fun r => r.link.url == nodeLink.url)) = true
    ∧ (mailURL == nodeLink.url) = false := by
  decide

/-- C7 (amended): during node-task link extraction every malformed or
non-crawlable candidate immediately emits exactly one result — attributed
to the owning node's link — while only parsed, crawlable candidates enter
the work queue, and the whole task still signals completion exactly
once (so bad candidates consume no completion signal and no
outstanding-count slot). -/
theorem c7_bad_candidates_reported_not_admitted :
    ∀ (parse : String → Except GoError URL) (hrefs : List String) (l : Link),
      enqueuedLinks (ProcessNodeTrace parse (FetchOutcome.ok hrefs) l) =
        hrefs.filterMap (fun h =>
          match parse h with
          | .ok u => if (Link.mk u l.url).IsCrawlable then some (Link.mk u l.url) else none
          | .error _ => none)
      ∧ emittedResults (ProcessNodeTrace parse (FetchOutcome.ok hrefs) l) =
          (hrefs.filterMap (fun h =>
            match parse h with
            | .ok u =>
              if (Link.mk u l.url).IsCrawlable then none
              else some (Result.mk (some GoError.notCrawlable) l)
            | .error e => some (Result.mk (some e) l))) ++ [Result.mk none l]
      ∧ (ProcessNodeTrace parse (FetchOutcome.ok hrefs) l).countP Event.isDone = 1 := by
  intro parse hrefs l
  refine ⟨?_, ?_, ?_⟩
  · simp only [ProcessNodeTrace]
    rw [enqueuedLinks_append, enqueuedLinks_append, enqueuedLinks_flatMap_candidates]
    simp [enqueuedLinks]
  · simp only [ProcessNodeTrace]
    rw [emittedResults_append, emittedResults_append, emittedResults_flatMap_candidates]
    simp [emittedResults]
  · have hd : ((hrefs.flatMap (candidateEvents parse l)).countP Event.isDone) = 0 :=
      flatMap_countP_zero _ _
        (fun s => candidateEvents_countP _ (fun _ => rfl) (fun _ => rfl) parse l s) hrefs
    simp [ProcessNodeTrace, List.countP_append, hd, List.countP_cons, Event.isDone]

/-- Extending the spawned tasks with a fresh key preserves the invariant
that spawned keys are visited and pairwise distinct. -/
theorem keys_extend_invariant (visited : List String) (spawned : List (String × Spawn))
    (u : String) (sp : Spawn)
    (h1 : ∀ k, k ∈ spawned.map Prod.fst → k ∈ visited)
    (h2 : (spawned.map Prod.fst).Nodup)
    (hu : u ∉ visited) :
    (∀ k, k ∈ (spawned ++ [(u, sp)]).map Prod.fst → k ∈ visited ++ [u])
    ∧ ((spawned ++ [(u, sp)]).map Prod.fst).Nodup := by
  constructor
  · intro k hk
    rw [List.map_append] at hk
    rcases List.mem_append.mp hk with h | h
    · exact List.mem_append.mpr (Or.inl (h1 k h))
    · simp only [List.map_cons, List.map_nil] at h
      exact List.mem_append.mpr (Or.inr h)
  · rw [List.map_append, List.nodup_append]
    refine ⟨h2, List.nodup_singleton u, ?_⟩
    intro k hk hk2
    simp only [List.map_cons, List.map_nil, List.mem_singleton] at hk2
    exact hu (hk2 ▸ h1 k hk)

/-- One dispatcher step preserves the invariant: every spawned key is in
the visited set, and the spawned keys are pairwise distinct. -/
theorem dispatchStep_invariant (st : DispatchState) (l : Link)
    (h1 : ∀ k, k ∈ st.spawned.map Prod.fst → k ∈ st.visited)
    (h2 : (st.spawned.map Prod.fst).Nodup) :
    (∀ k, k ∈ (dispatchStep st l).spawned.map Prod.fst → k ∈ (dispatchStep st l).visited)
    ∧ ((dispatchStep st l).spawned.map Prod.fst).Nodup := by
  simp only [dispatchStep]
  by_cases hmem : l.url.goString ∈ st.visited
  · simp only [if_pos hmem]
    exact ⟨h1, h2⟩
  · simp only [if_neg hmem]
    by_cases hint : l.IsInternal = true
    · simp only [if_pos hint]
      exact keys_extend_invariant st.visited st.spawned _ _ h1 h2 hmem
    · simp only [if_neg hint]
      exact keys_extend_invariant st.visited st.spawned _ _ h1 h2 hmem

/-- The dispatcher invariant holds along any run from an invariant
state. -/
theorem dispatch_keys_invariant :
    ∀ (msgs : List Link) (st : DispatchState),
      (∀ k, k ∈ st.spawned.map Prod.fst → k ∈ st.visited) →
      (st.spawned.map Prod.fst).Nodup →
      (∀ k, k ∈ (msgs.foldl dispatchStep st).spawned.map Prod.fst →
          k ∈ (msgs.foldl dispatchStep st).visited)
      ∧ ((msgs.foldl dispatchStep st).spawned.map Prod.fst).Nodup := by
  intro msgs
  induction msgs with
  | nil => intro st h1 h2; exact ⟨h1, h2⟩
  | cons a t ih =>
    intro st h1 h2
    rw [List.foldl_cons]
    have hstep := dispatchStep_invariant st a h1 h2
    exact ih (dispatchStep st a) hstep.1 hstep.2

/-- C3 counterexample: the hrefs `/articles/foo.html` (found on the index
page) and `foo.html` (found on the articles page) carry distinct discovery
strings, so both pass the visited-set check — and both spawned node tasks
fetch the same URL string `https://paedubucher.ch/articles/foo.html`,
which therefore appears in two spawned fetch tasks. -/
theorem c3_counterexample :
    ((dispatchRun c3msgs).spawned.map (fun p => Spawn.fetchURL p.2)).count
        "https://paedubucher.ch/articles/foo.html" = 2
    ∧ (dispatchRun c3msgs).spawned.map Prod.fst = ["/articles/foo.html", "foo.html"] := by
  decide

/-- C3 (amended): the dispatcher deduplicates on the discovered link's URL
string as received (before qualification): no such string is admitted to
more than one spawned task, and a message whose string is already in the
visited set leaves the dispatcher's state unchanged — no new task, no
result.  Distinct discovered strings may still qualify to the same
absolute URL and be fetched more than once. -/
theorem c3_dedup_on_discovered_url_strings :
    ∀ msgs : List Link,
      ((dispatchRun msgs).spawned.map Prod.fst).Nodup
      ∧ ∀ l : Link, l.url.goString ∈ (dispatchRun msgs).visited →
          dispatchRun (msgs ++ [l]) = dispatchRun msgs := by
  intro msgs
  constructor
  · exact (dispatch_keys_invariant msgs ⟨[], []⟩
      (fun k h => absurd h (List.not_mem_nil k)) List.nodup_nil).2
  · intro l hmem
    rw [dispatchRun] at hmem ⊢
    rw [dispatchRun, List.foldl_append, List.foldl_cons, List.foldl_nil]
    rw [dispatchStep]
    simp only [if_pos hmem]

/-- C3 witness: on the concrete two-message run, re-delivering the second
message finds its string in the visited set and the dispatcher's state is
unchanged. -/
theorem c3_dedup_witness :
    c3relative.url.goString ∈ (dispatchRun c3msgs).visited
    ∧ dispatchRun (c3msgs ++ [c3relative]) = dispatchRun c3msgs :=
  ⟨by decide, (c3_dedup_on_discovered_url_strings c3msgs).2 c3relative (by decide)⟩
